import Mathlib

/-!
Shallow embedding of the event-aggregation-and-caching pipeline of the
`callux` command-line agenda utility (`src/cache.rs`, `src/calendar.rs`,
supporting types from `src/config.rs`, `src/error.rs`, `src/output.rs`),
together with theorems settling the specification claims about it.

Modelling conventions:
* Instants (`chrono::DateTime<Utc>` / `DateTime<Local>`) are modelled as
  `Int` timestamps counting seconds; a timezone conversion such as
  `with_timezone(&Local)` preserves the instant and is therefore the
  identity on timestamps.  The local timezone is modelled as a fixed UTC
  offset `tz : Int` in seconds (DST transitions are not modelled).
* Calendar dates (`chrono::NaiveDate`) are modelled as `Int` day numbers;
  midnight local time on day `d` is the instant `d * 86400 - tz`.
* The network side (authenticator construction, HTTPS connector, and the
  Google Calendar API) is the environment: it enters as explicit
  parameters (`setup`, `provider`) holding the outcomes the live code
  obtains by I/O.
* The moka cache, at the instant of one call and before TTL expiry, is
  modelled as an association list queried front-to-back; `insert`
  prepends, which realises moka's replace-on-insert as observed by `get`.
* Rust `Result` becomes `Except`, `Option` becomes `Option`, and the
  stable `Vec::sort_by` becomes `List.mergeSort` (both are stable sorts
  by the same total comparison, hence produce the same output).
-/

namespace Callux

/-- Instants in seconds (a `chrono::DateTime` pinned to its instant). -/
abbrev Timestamp := Int

/-- Calendar dates as day numbers (a `chrono::NaiveDate`). -/
abbrev Day := Int

/-- Embeds `google_calendar3::api::EventDateTime`: the start or end of a raw
provider event, carrying either an all-day `date` or a timed `date_time`
(`time_zone` is never read by the code and is omitted). -/
structure EventDateTime where
  date : Option Day
  date_time : Option Timestamp
deriving DecidableEq

/-- Embeds the fields of `google_calendar3::api::Event` that
`CalendarClient::convert_event` reads: `id`, `summary`, `description`,
`start`, `end`. -/
structure Event where
  id : Option String
  summary : Option String
  description : Option String
  start : Option EventDateTime
  «end» : Option EventDateTime
deriving DecidableEq

/-- Embeds `CalendarConfig` (src/config.rs). -/
structure CalendarConfig where
  id : String
  name : String
  color : String
  enabled : Bool
deriving DecidableEq

/-- Embeds `Config` (src/config.rs), restricted to the `calendars` field,
the only one the embedded functions read (`auth`, `cache`, `display`
configure I/O and rendering, which live outside this embedding). -/
structure Config where
  calendars : List CalendarConfig
deriving DecidableEq

/-- Embeds `CalendarEvent` (src/output.rs): the normalized event. -/
structure CalendarEvent where
  id : String
  title : String
  description : Option String
  start_time : Timestamp
  end_time : Timestamp
  calendar_name : String
  calendar_color : String
  all_day : Bool
deriving DecidableEq

/-- Embeds `CalendarError` (src/error.rs). -/
inductive CalendarError where
  | authenticationFailed : String → CalendarError
  | apiError : String → CalendarError
  | networkError : String → CalendarError
  | configError : String → CalendarError
  | cacheError : String → CalendarError
  | parseError : String → CalendarError
deriving DecidableEq

/-- Embeds `EventCache::generate_key` (src/cache.rs, lines 37-41):
`calendar_ids.join(",")` followed by `push_str(&format!(":{}", days_ahead))`. -/
def generate_key (calendar_ids : List String) (days_ahead : Int) : String :=
  let key := String.intercalate "," calendar_ids
  key ++ (":" ++ toString days_ahead)

/-- Embeds `EventCache::get` at one instant before TTL expiry: moka's
`cache.get(key)` returns the live entry stored under `key`, if any. -/
def cacheGet (cache : List (String × List CalendarEvent)) (key : String) :
    Option (List CalendarEvent) :=
  (cache.find? (fun p => p.1 == key)).map (·.2)

/-- Embeds `EventCache::set`: moka's `cache.insert(key, events)` replaces
the entry observed by subsequent `get`s of `key`. -/
def cacheSet (cache : List (String × List CalendarEvent)) (key : String)
    (events : List CalendarEvent) : List (String × List CalendarEvent) :=
  (key, events) :: cache

/-- Chrono's `with_timezone(&Local)` changes only the displayed offset of a
`DateTime`, never the instant; on timestamps it is the identity. -/
def with_timezone_local (t : Timestamp) : Timestamp := t

/-- Embeds `Local.from_local_datetime(&date.and_hms_opt(0, 0, 0).unwrap()).unwrap()`
for the fixed local offset `tz`: midnight local time on day `d` is the
instant `d * 86400 - tz`. -/
def local_midnight (tz : Int) (d : Day) : Timestamp :=
  d * 86400 - tz

/-- Embeds `CalendarClient::convert_event` (src/calendar.rs, lines 125-167):
a timed start takes the timed branch (explicit timed end, else start plus
one hour); an all-day date takes the midnight-to-midnight branch; a record
with neither yields `Ok(None)`. -/
def convert_event (tz : Int) (event : Event) (calendar_config : CalendarConfig) :
    Except CalendarError (Option CalendarEvent) :=
  let id := event.id.getD ""
  let title := event.summary.getD "Untitled Event"
  let description := event.description
  match event.start with
  | none => .ok none
  | some start =>
    match start.date_time with
    | some date_time =>
      let start_dt := with_timezone_local date_time
      let end_dt :=
        match event.«end» with
        | some e =>
          match e.date_time with
          | some end_date_time => with_timezone_local end_date_time
          | none => start_dt + 3600
        | none => start_dt + 3600
      .ok (some { id, title, description, start_time := start_dt, end_time := end_dt,
                  calendar_name := calendar_config.name,
                  calendar_color := calendar_config.color, all_day := false })
    | none =>
      match start.date with
      | some date =>
        let start_dt := local_midnight tz date
        let end_dt := start_dt + 86400
        .ok (some { id, title, description, start_time := start_dt, end_time := end_dt,
                    calendar_name := calendar_config.name,
                    calendar_color := calendar_config.color, all_day := true })
      | none => .ok none

/-- Embeds the request that `CalendarClient::fetch_calendar_events` builds
(src/calendar.rs, lines 96-104): `events().list(calendar_id)` with
`time_min`, `time_max`, `single_events(true)`, `order_by("startTime")`,
`max_results(250)`. -/
structure EventsListRequest where
  calendarId : String
  timeMin : Timestamp
  timeMax : Timestamp
  singleEvents : Bool
  orderBy : String
  maxResults : Nat
deriving DecidableEq

/-- The concrete request `fetch_calendar_events` issues. -/
def eventsListRequest (calendar_id : String) (start_time end_time : Timestamp) :
    EventsListRequest :=
  { calendarId := calendar_id, timeMin := start_time, timeMax := end_time,
    singleEvents := true, orderBy := "startTime", maxResults := 250 }

/-- Embeds the `for event in events { if let Some(cal_event) = convert_event(..)? }`
loop of `fetch_calendar_events` (src/calendar.rs, lines 116-120): converts
records in order, propagating errors and dropping `None` results. -/
def convertEvents (tz : Int) (calendar_config : CalendarConfig) :
    List Event → Except CalendarError (List CalendarEvent)
  | [] => .ok []
  | event :: rest =>
    match convert_event tz event calendar_config with
    | .error e => .error e
    | .ok converted =>
      match convertEvents tz calendar_config rest with
      | .error e => .error e
      | .ok tail =>
        match converted with
        | some cal_event => .ok (cal_event :: tail)
        | none => .ok tail

/-- Embeds `CalendarClient::fetch_calendar_events` (src/calendar.rs, lines
89-123): issue the list request to the provider, map its failure to
`ApiError`, look up the calendar's configuration (`ConfigError` when
absent), take `items.unwrap_or_default()` and convert each record. -/
def fetch_calendar_events (tz : Int)
    (provider : EventsListRequest → Except String (Option (List Event)))
    (calendars : List CalendarConfig) (calendar_id : String)
    (start_time end_time : Timestamp) :
    Except CalendarError (List CalendarEvent) :=
  match provider (eventsListRequest calendar_id start_time end_time) with
  | .error e => .error (.apiError ("Failed to fetch events: " ++ e))
  | .ok items =>
    match calendars.find? (fun cal => cal.id == calendar_id) with
    | none => .error (.configError ("Calendar config not found for ID: " ++ calendar_id))
    | some calendar_config =>
      convertEvents tz calendar_config (items.getD [])

/-- The comparison `|a, b| a.start_time.cmp(&b.start_time)` used by
`all_events.sort_by` (src/calendar.rs, line 85), as the Boolean
less-or-equal the stable sort consumes. -/
def startLE (a b : CalendarEvent) : Bool :=
  decide (a.start_time ≤ b.start_time)

/-- Embeds the per-calendar fetch loop of `fetch_events_from_api`
(src/calendar.rs, lines 74-83): successes are appended in calendar order,
a failed calendar is logged and skipped. -/
def fetchLoop (tz : Int)
    (provider : EventsListRequest → Except String (Option (List Event)))
    (calendars : List CalendarConfig) (start_time end_time : Timestamp) :
    List String → List CalendarEvent
  | [] => []
  | calendar_id :: rest =>
    match fetch_calendar_events tz provider calendars calendar_id start_time end_time with
    | .ok events => events ++ fetchLoop tz provider calendars start_time end_time rest
    | .error _ => fetchLoop tz provider calendars start_time end_time rest

/-- Embeds `CalendarClient::fetch_events_from_api` (src/calendar.rs, lines
58-87): `setup` is the outcome of building the authenticator and HTTPS
connector; on success the loop collects per-calendar events over the
window `[now, now + days_ahead]` and the result is stably sorted by
`start_time`. -/
def fetch_events_from_api (tz : Int) (setup : Except CalendarError Unit)
    (provider : EventsListRequest → Except String (Option (List Event)))
    (calendars : List CalendarConfig) (calendar_ids : List String)
    (now : Timestamp) (days_ahead : Int) :
    Except CalendarError (List CalendarEvent) :=
  match setup with
  | .error e => .error e
  | .ok () =>
    let end_time := now + 86400 * days_ahead
    let all_events := fetchLoop tz provider calendars now end_time calendar_ids
    .ok (all_events.mergeSort startLE)

/-- Embeds `CalendarClient::get_events` (src/calendar.rs, lines 29-56);
returns the call's result together with the cache contents after the
call.  On a cache hit the cached list is returned as is; on a miss the
full fetched list is stored and the returned list is truncated to
`limit` when one is given. -/
def get_events (tz : Int) (setup : Except CalendarError Unit)
    (provider : EventsListRequest → Except String (Option (List Event)))
    (config : Config) (cache : List (String × List CalendarEvent))
    (now : Timestamp) (days_ahead : Int) (limit : Option Nat) :
    Except CalendarError (List CalendarEvent) × List (String × List CalendarEvent) :=
  let enabled_calendars := config.calendars.filter (fun cal => cal.enabled)
  let calendar_ids := enabled_calendars.map (fun cal => cal.id)
  let cache_key := generate_key calendar_ids days_ahead
  match cacheGet cache cache_key with
  | some cached_events => (.ok cached_events, cache)
  | none =>
    match fetch_events_from_api tz setup provider config.calendars calendar_ids now days_ahead with
    | .error e => (.error e, cache)
    | .ok events =>
      let cache' := cacheSet cache cache_key events
      let limited_events :=
        match limit with
        | some l => events.take l
        | none => events
      (.ok limited_events, cache')

/-- A record with no usable start: either no `start` at all, or a `start`
carrying neither a timed `date_time` nor an all-day `date`. -/
def noUsableStart (event : Event) : Prop :=
  event.start = none ∨
    ∃ st, event.start = some st ∧ st.date_time = none ∧ st.date = none

/-- Concrete enabled calendar used to evaluate the theorems. -/
def exCal : CalendarConfig :=
  { id := "primary", name := "Personal", color := "#1976d2", enabled := true }

/-- Concrete configuration with the single enabled calendar `exCal`. -/
def exConfig : Config := { calendars := [exCal] }

/-- Concrete timed raw event starting at instant 100 with no end. -/
def exEvent1 : Event :=
  { id := some "e1", summary := some "First", description := none,
    start := some { date := none, date_time := some 100 }, «end» := none }

/-- Concrete timed raw event starting at instant 200 with no end. -/
def exEvent2 : Event :=
  { id := some "e2", summary := some "Second", description := none,
    start := some { date := none, date_time := some 200 }, «end» := none }

/-- Provider returning `exEvent1` and `exEvent2` for every request. -/
def exProvider : EventsListRequest → Except String (Option (List Event)) :=
  fun _ => .ok (some [exEvent1, exEvent2])

/-- The normalized form of `exEvent1`. -/
def exCE1 : CalendarEvent :=
  { id := "e1", title := "First", description := none, start_time := 100,
    end_time := 3700, calendar_name := "Personal", calendar_color := "#1976d2",
    all_day := false }

/-- The normalized form of `exEvent2`. -/
def exCE2 : CalendarEvent :=
  { id := "e2", title := "Second", description := none, start_time := 200,
    end_time := 3800, calendar_name := "Personal", calendar_color := "#1976d2",
    all_day := false }

/-- Concrete raw event whose explicit timed end (3600) precedes its timed
start (7200). -/
def exEventBadEnd : Event :=
  { id := some "x", summary := none, description := none,
    start := some { date := none, date_time := some 7200 },
    «end» := some { date := none, date_time := some 3600 } }

/-- The normalized form of `exEventBadEnd`: its end precedes its start. -/
def exCEBad : CalendarEvent :=
  { id := "x", title := "Untitled Event", description := none,
    start_time := 7200, end_time := 3600, calendar_name := "Personal",
    calendar_color := "#1976d2", all_day := false }

/-- Concrete all-day raw event on day 19875 (only a date, no time-of-day). -/
def exEventAllDay : Event :=
  { id := some "d", summary := some "Holiday", description := none,
    start := some { date := some 19875, date_time := none }, «end» := none }

/-- Concrete raw event with no usable start: a `start` field carrying
neither a timed `date_time` nor an all-day `date`. -/
def exEventNoStart : Event :=
  { id := some "n", summary := none, description := none,
    start := some { date := none, date_time := none }, «end» := none }

-- Equality of `Except` values is decidable when it is for both components.
deriving instance DecidableEq for Except

/-! Helper lemmas: decimal string representations are injective.  These
support the cache-key claims, since `generate_key` embeds `days_ahead`
via `format!` / `toString`. -/

def decodeDigit (c : Char) : Nat := c.toNat - 48

theorem digitChar_decode : ∀ d : Nat, d < 10 → decodeDigit (Nat.digitChar d) = d := by decide

theorem digitChar_ne_dash : ∀ d : Nat, d < 10 → Nat.digitChar d ≠ '-' := by decide

theorem toDigitsCore_eq_append (b : Nat) :
    ∀ (fuel n : Nat) (ds : List Char),
      Nat.toDigitsCore b fuel n ds = Nat.toDigitsCore b fuel n [] ++ ds
  | 0, _, _ => rfl
  | fuel+1, n, ds => by
    simp only [Nat.toDigitsCore]
    by_cases h : n / b = 0
    · simp [h]
    · simp only [h, if_false]
      rw [toDigitsCore_eq_append b fuel (n / b) (Nat.digitChar (n % b) :: ds),
          toDigitsCore_eq_append b fuel (n / b) [Nat.digitChar (n % b)]]
      simp

theorem foldl_toDigitsCore_ten :
    ∀ (fuel n a : Nat), n < fuel →
      ∃ k, 0 < k ∧
        List.foldl (fun acc c => acc * 10 + decodeDigit c) a (Nat.toDigitsCore 10 fuel n []) =
          a * 10 ^ k + n
  | 0, n, _, h => absurd h (Nat.not_lt_zero n)
  | fuel+1, n, a, h => by
    simp only [Nat.toDigitsCore]
    by_cases hd : n / 10 = 0
    · refine ⟨1, Nat.one_pos, ?_⟩
      have hn : n < 10 := by omega
      rw [if_pos hd]
      simp only [List.foldl]
      rw [digitChar_decode (n % 10) (Nat.mod_lt n (by norm_num)), Nat.mod_eq_of_lt hn,
        pow_one]
    · have hpos : 0 < n := by
        rcases Nat.eq_zero_or_pos n with h0 | h0
        · subst h0; simp at hd
        · exact h0
      have hlt : n / 10 < fuel :=
        Nat.lt_of_lt_of_le (Nat.div_lt_self hpos (by norm_num)) (Nat.lt_succ_iff.mp h)
      obtain ⟨k, hk, ih⟩ := foldl_toDigitsCore_ten fuel (n / 10) a hlt
      refine ⟨k + 1, Nat.succ_pos k, ?_⟩
      rw [if_neg hd, toDigitsCore_eq_append 10 fuel (n / 10) [Nat.digitChar (n % 10)],
        List.foldl_append, ih]
      simp only [List.foldl]
      rw [digitChar_decode (n % 10) (Nat.mod_lt n (by norm_num)), pow_succ, ← mul_assoc]
      omega

theorem nat_repr_data_injective {m n : Nat}
    (h : (Nat.repr m).data = (Nat.repr n).data) : m = n := by
  have hm := foldl_toDigitsCore_ten (m + 1) m 0 (Nat.lt_succ_self m)
  have hn := foldl_toDigitsCore_ten (n + 1) n 0 (Nat.lt_succ_self n)
  obtain ⟨k₁, -, h₁⟩ := hm
  obtain ⟨k₂, -, h₂⟩ := hn
  have hdata : Nat.toDigitsCore 10 (m + 1) m [] = Nat.toDigitsCore 10 (n + 1) n [] := h
  rw [hdata, h₂] at h₁
  simpa using h₁.symm

theorem mem_toDigitsCore_ten :
    ∀ (fuel n : Nat) (ds : List Char) (c : Char), c ∈ Nat.toDigitsCore 10 fuel n ds →
      c ∈ ds ∨ ∃ d, d < 10 ∧ c = Nat.digitChar d
  | 0, _, _, _, h => .inl h
  | fuel+1, n, ds, c, h => by
    simp only [Nat.toDigitsCore] at h
    by_cases hd : n / 10 = 0
    · rw [if_pos hd] at h
      rcases List.mem_cons.mp h with h' | h'
      · exact .inr ⟨n % 10, Nat.mod_lt n (by norm_num), h'⟩
      · exact .inl h'
    · rw [if_neg hd] at h
      rcases mem_toDigitsCore_ten fuel (n / 10) _ c h with h' | h'
      · rcases List.mem_cons.mp h' with h'' | h''
        · exact .inr ⟨n % 10, Nat.mod_lt n (by norm_num), h''⟩
        · exact .inl h''
      · exact .inr h'

theorem dash_not_mem_nat_repr (n : Nat) : '-' ∉ (Nat.repr n).data := by
  intro h
  rcases mem_toDigitsCore_ten (n + 1) n [] '-' h with h' | ⟨d, hd, he⟩
  · simp at h'
  · exact digitChar_ne_dash d hd he.symm

theorem int_toString_data_injective : ∀ {i j : Int},
    (toString i).data = (toString j).data → i = j := by
  intro i j h
  cases i with
  | ofNat m =>
    cases j with
    | ofNat n =>
      have hmn : (Nat.repr m).data = (Nat.repr n).data := h
      exact congrArg Int.ofNat (nat_repr_data_injective hmn)
    | negSucc n =>
      have hmem : '-' ∈ (Nat.repr m).data := by
        have h' : (Nat.repr m).data = '-' :: (Nat.repr (n + 1)).data := h
        rw [h']
        exact List.mem_cons_self _ _
      exact absurd hmem (dash_not_mem_nat_repr m)
  | negSucc m =>
    cases j with
    | ofNat n =>
      have hmem : '-' ∈ (Nat.repr n).data := by
        have h' : '-' :: (Nat.repr (m + 1)).data = (Nat.repr n).data := h
        rw [← h']
        exact List.mem_cons_self _ _
      exact absurd hmem (dash_not_mem_nat_repr n)
    | negSucc n =>
      have h' : '-' :: (Nat.repr (m + 1)).data = '-' :: (Nat.repr (n + 1)).data := h
      have h'' : (Nat.repr (m + 1)).data = (Nat.repr (n + 1)).data := by
        injection h'
      have hmn : m = n := by
        have := nat_repr_data_injective h''
        omega
      exact congrArg Int.negSucc hmn

/-- Appending strings concatenates their character data. -/
theorem string_data_append (a b : String) : (a ++ b).data = a.data ++ b.data := rfl

/-- Character-level shape of a generated cache key: the joined calendar ids,
a colon, then the decimal rendering of `days_ahead`. -/
theorem generate_key_data (ids : List String) (d : Int) :
    (generate_key ids d).data =
      (String.intercalate "," ids).data ++ ':' :: (toString d).data := rfl

/-- C2 counterexample: the claim asserts that any two inputs differing in
the calendar-id sequence produce different keys; the sequences `["a,b"]`
and `["a", "b"]` differ yet produce the identical key `"a,b:0"`, because
ids are joined with the same `","` used as the separator. -/
theorem c2_counterexample :
    (["a,b"] : List String) ≠ ["a", "b"] ∧
      generate_key ["a,b"] 0 = generate_key ["a", "b"] 0 :=
  ⟨by decide, by decide⟩

/-- C2 (amended): `generate_key` is deterministic in (calendar-id sequence,
days_ahead), and for one calendar-id sequence distinct `days_ahead` values
always give distinct keys; injectivity in the calendar-id sequence fails
when distinct sequences have the same comma-join. -/
theorem c2_generate_key_amended :
    (∀ (ids₁ ids₂ : List String) (d₁ d₂ : Int), ids₁ = ids₂ → d₁ = d₂ →
      generate_key ids₁ d₁ = generate_key ids₂ d₂) ∧
    ∀ (ids : List String) (d₁ d₂ : Int), d₁ ≠ d₂ →
      generate_key ids d₁ ≠ generate_key ids d₂ := by
  constructor
  · rintro ids _ d _ rfl rfl
    rfl
  · intro ids d₁ d₂ h he
    apply h
    apply int_toString_data_injective
    have hd : (String.intercalate "," ids).data ++ ':' :: (toString d₁).data =
        (String.intercalate "," ids).data ++ ':' :: (toString d₂).data := by
      have h' := congrArg String.data he
      rwa [generate_key_data, generate_key_data] at h'
    have h'' := List.append_cancel_left hd
    injection h''

/-- C2 witness: the amended theorem evaluated at the calendar list `["a"]`
and the distinct day values 1 and 2. -/
theorem c2_witness :
    generate_key ["a"] 1 = generate_key ["a"] 1 ∧
      generate_key ["a"] 1 ≠ generate_key ["a"] 2 :=
  ⟨c2_generate_key_amended.1 ["a"] ["a"] 1 1 rfl rfl,
    c2_generate_key_amended.2 ["a"] 1 2 (by decide)⟩

/-- C9: `generate_key` is total and pure: on the empty calendar-id list the
key is the empty joined string followed by the lookahead marker
`":{days_ahead}"`, and identical inputs always yield the identical key. -/
theorem c9_generate_key_total :
    (∀ d : Int, generate_key [] d = ":" ++ toString d) ∧
    ∀ (ids₁ ids₂ : List String) (d₁ d₂ : Int), ids₁ = ids₂ → d₁ = d₂ →
      generate_key ids₁ d₁ = generate_key ids₂ d₂ := by
  constructor
  · intro d
    simp [generate_key, String.intercalate]
  · rintro ids _ d _ rfl rfl
    rfl

/-- C9 witness: the theorem evaluated at the empty list with 5 days ahead
and at the pair of identical inputs `(["a"], 3)`. -/
theorem c9_witness :
    generate_key [] 5 = ":" ++ toString (5 : Int) ∧
      generate_key ["a"] 3 = generate_key ["a"] 3 :=
  ⟨c9_generate_key_total.1 5, c9_generate_key_total.2 ["a"] ["a"] 3 3 rfl rfl⟩

/-- C3 counterexample: the claim asserts `end_time >= start_time` for every
converted record, but a record with an explicit timed end (3600) earlier
than its timed start (7200) is converted with the end copied as is, giving
`end_time < start_time`. -/
theorem c3_counterexample :
    convert_event 0 exEventBadEnd exCal = .ok (some exCEBad) ∧
      exCEBad.end_time < exCEBad.start_time :=
  ⟨by decide, by decide⟩

/-- C3 (amended): every NormalizedEvent produced by the converter satisfies
`end_time >= start_time` provided that, when the record carries a timed
end, that end is not earlier than the timed start; all-day records and
records with an absent or untimed end always satisfy the invariant. -/
theorem c3_end_ge_start_amended (tz : Int) (event : Event) (cfg : CalendarConfig)
    (ev : CalendarEvent)
    (hend : ∀ st s en t, event.start = some st → st.date_time = some s →
      event.«end» = some en → en.date_time = some t → s ≤ t)
    (hconv : convert_event tz event cfg = .ok (some ev)) :
    ev.start_time ≤ ev.end_time := by
  rcases hstart : event.start with _ | st
  · simp [convert_event, hstart] at hconv
  · rcases hdt : st.date_time with _ | s
    · rcases hdate : st.date with _ | d
      · simp [convert_event, hstart, hdt, hdate] at hconv
      · simp [convert_event, hstart, hdt, hdate] at hconv
        subst hconv
        simp [local_midnight]
    · rcases hen : event.«end» with _ | en
      · simp [convert_event, hstart, hdt, hen, with_timezone_local] at hconv
        subst hconv
        simp
      · rcases hedt : en.date_time with _ | t
        · simp [convert_event, hstart, hdt, hen, hedt, with_timezone_local] at hconv
          subst hconv
          simp
        · have hle := hend st s en t hstart hdt hen hedt
          simp [convert_event, hstart, hdt, hen, hedt, with_timezone_local] at hconv
          subst hconv
          simpa using hle

/-- C3 witness: the amended theorem evaluated at `exEvent1` (timed start,
no end), whose converted form satisfies the invariant. -/
theorem c3_witness : exCE1.start_time ≤ exCE1.end_time :=
  c3_end_ge_start_amended 0 exEvent1 exCal exCE1
    (by intro st s en t _ _ hen; simp [exEvent1] at hen)
    (by decide)

/-- C6: a record whose start carries only a date converts to an event from
midnight local time on that day to midnight local time on the following
day with `all_day = true`; a timed start always takes precedence over any
all-day date on the same record and yields `all_day = false`. -/
theorem c6_all_day_normalization (tz : Int) (event : Event)
    (cfg : CalendarConfig) (st : EventDateTime)
    (hstart : event.start = some st) :
    (∀ d, st.date_time = none → st.date = some d →
      ∃ ev, convert_event tz event cfg = .ok (some ev) ∧
        ev.start_time = local_midnight tz d ∧
        ev.end_time = local_midnight tz (d + 1) ∧ ev.all_day = true) ∧
    (∀ t, st.date_time = some t →
      ∃ ev, convert_event tz event cfg = .ok (some ev) ∧ ev.all_day = false) := by
  constructor
  · intro d hdt hdate
    simp only [convert_event, hstart, hdt, hdate]
    refine ⟨_, rfl, rfl, ?_, rfl⟩
    simp only [local_midnight]
    ring
  · intro t hdt
    simp only [convert_event, hstart, hdt]
    exact ⟨_, rfl, rfl⟩

/-- C6 witness: the theorem evaluated at the all-day record `exEventAllDay`
(day 19875) and at the timed record `exEvent1`. -/
theorem c6_witness :
    (∃ ev, convert_event 0 exEventAllDay exCal = .ok (some ev) ∧
      ev.start_time = local_midnight 0 19875 ∧
      ev.end_time = local_midnight 0 (19875 + 1) ∧ ev.all_day = true) ∧
    ∃ ev, convert_event 0 exEvent1 exCal = .ok (some ev) ∧ ev.all_day = false :=
  ⟨(c6_all_day_normalization 0 exEventAllDay exCal _ rfl).1 19875 rfl rfl,
    (c6_all_day_normalization 0 exEvent1 exCal _ rfl).2 100 rfl⟩

/-- C7: a record with a timed start whose end is absent or not timed
converts with `end_time = start_time + 1 hour`, and a present timed end is
converted to local time; in both cases the start is converted to local
time and `all_day = false`. -/
theorem c7_timed_default_end (tz : Int) (event : Event) (cfg : CalendarConfig)
    (st : EventDateTime) (t : Timestamp)
    (hstart : event.start = some st) (ht : st.date_time = some t) :
    (event.«end» = none ∨ (∃ en, event.«end» = some en ∧ en.date_time = none) →
      ∃ ev, convert_event tz event cfg = .ok (some ev) ∧
        ev.start_time = with_timezone_local t ∧
        ev.end_time = with_timezone_local t + 3600 ∧ ev.all_day = false) ∧
    ∀ en u, event.«end» = some en → en.date_time = some u →
      ∃ ev, convert_event tz event cfg = .ok (some ev) ∧
        ev.start_time = with_timezone_local t ∧
        ev.end_time = with_timezone_local u ∧ ev.all_day = false := by
  constructor
  · rintro (hen | ⟨en, hen, hedt⟩)
    · simp only [convert_event, hstart, ht, hen]
      exact ⟨_, rfl, rfl, rfl, rfl⟩
    · simp only [convert_event, hstart, ht, hen, hedt]
      exact ⟨_, rfl, rfl, rfl, rfl⟩
  · intro en u hen hedt
    simp only [convert_event, hstart, ht, hen, hedt]
    exact ⟨_, rfl, rfl, rfl, rfl⟩

/-- C7 witness: the theorem evaluated at `exEvent1` (no end: defaulted to
start + 1 hour) and at `exEventBadEnd` (explicit timed end: copied). -/
theorem c7_witness :
    (∃ ev, convert_event 0 exEvent1 exCal = .ok (some ev) ∧
      ev.start_time = with_timezone_local 100 ∧
      ev.end_time = with_timezone_local 100 + 3600 ∧ ev.all_day = false) ∧
    ∃ ev, convert_event 0 exEventBadEnd exCal = .ok (some ev) ∧
      ev.start_time = with_timezone_local 7200 ∧
      ev.end_time = with_timezone_local 3600 ∧ ev.all_day = false :=
  ⟨(c7_timed_default_end 0 exEvent1 exCal _ 100 rfl rfl).1 (Or.inl rfl),
    (c7_timed_default_end 0 exEventBadEnd exCal _ 7200 rfl rfl).2 _ 3600 rfl rfl⟩

/-- C8: the converter is total: it never returns an error for any record
and calendar metadata; a record with no usable start yields `Ok(None)`,
and such a record contributes nothing to the converted output list. -/
theorem c8_converter_total (tz : Int) (cfg : CalendarConfig) :
    (∀ event, ∃ v, convert_event tz event cfg = .ok v) ∧
    (∀ event, noUsableStart event → convert_event tz event cfg = .ok none) ∧
    ∀ event rest, noUsableStart event →
      convertEvents tz cfg (event :: rest) = convertEvents tz cfg rest := by
  have hnone : ∀ event, noUsableStart event → convert_event tz event cfg = .ok none := by
    rintro event (hs | ⟨st, hs, hdt, hdate⟩)
    · simp [convert_event, hs]
    · simp [convert_event, hs, hdt, hdate]
  refine ⟨?_, hnone, ?_⟩
  · intro event
    rcases hs : event.start with _ | st
    · exact ⟨none, by simp [convert_event, hs]⟩
    · rcases hdt : st.date_time with _ | t
      · rcases hdate : st.date with _ | d
        · exact ⟨none, by simp [convert_event, hs, hdt, hdate]⟩
        · simp only [convert_event, hs, hdt, hdate]
          exact ⟨_, rfl⟩
      · simp only [convert_event, hs, hdt]
        exact ⟨_, rfl⟩
  · intro event rest hu
    rw [convertEvents, hnone event hu]
    cases h : convertEvents tz cfg rest <;> rfl

/-- C8 witness: the theorem evaluated at the startless record
`exEventNoStart`, which converts to `Ok(None)` and is dropped from the
output of a batch conversion. -/
theorem c8_witness :
    (∃ v, convert_event 0 exEventNoStart exCal = .ok v) ∧
    convert_event 0 exEventNoStart exCal = .ok none ∧
    convertEvents 0 exCal [exEventNoStart, exEvent1] = convertEvents 0 exCal [exEvent1] :=
  ⟨(c8_converter_total 0 exCal).1 exEventNoStart,
    (c8_converter_total 0 exCal).2.1 exEventNoStart
      (Or.inr ⟨_, rfl, rfl, rfl⟩),
    (c8_converter_total 0 exCal).2.2 exEventNoStart [exEvent1]
      (Or.inr ⟨_, rfl, rfl, rfl⟩)⟩

/-- The sort comparison `startLE` is transitive. -/
theorem startLE_trans (a b c : CalendarEvent)
    (h₁ : startLE a b = true) (h₂ : startLE b c = true) : startLE a c = true :=
  decide_eq_true (le_trans (of_decide_eq_true h₁) (of_decide_eq_true h₂))

/-- The sort comparison `startLE` is total. -/
theorem startLE_total (a b : CalendarEvent) :
    startLE a b || startLE b a := by
  rcases le_total a.start_time b.start_time with h | h <;>
    simp [startLE, h]

/-- A batch conversion produces at most as many normalized events as there
are raw records. -/
theorem convertEvents_length_le (tz : Int) (cfg : CalendarConfig) :
    ∀ (events : List Event) (l : List CalendarEvent),
      convertEvents tz cfg events = .ok l → l.length ≤ events.length
  | [], l, h => by
    simp only [convertEvents] at h
    cases h
    simp
  | e :: rest, l, h => by
    rw [convertEvents] at h
    cases hc : convert_event tz e cfg with
    | error err => rw [hc] at h; cases h
    | ok v =>
      rw [hc] at h
      cases ht : convertEvents tz cfg rest with
      | error err => rw [ht] at h; cases h
      | ok tail =>
        rw [ht] at h
        have htl := convertEvents_length_le tz cfg rest tail ht
        cases v with
        | some ce =>
          cases h
          simp only [List.length_cons]
          omega
        | none =>
          cases h
          simp only [List.length_cons]
          omega

/-- C4: with the setup succeeding, aggregation returns the concatenation of
the per-calendar converted lists sorted ascending by `start_time`, the
sort being stable: any pair in order in the concatenation stays in order
in the result, so equal start times keep their fetch order. -/
theorem c4_merge_sorted_stable (tz : Int) (setup : Except CalendarError Unit)
    (provider : EventsListRequest → Except String (Option (List Event)))
    (calendars : List CalendarConfig) (calendar_ids : List String)
    (now days_ahead : Int) (hsetup : setup = .ok ()) :
    ∃ r, fetch_events_from_api tz setup provider calendars calendar_ids now days_ahead
        = .ok r ∧
      r.Pairwise (fun a b => a.start_time ≤ b.start_time) ∧
      r.Perm (fetchLoop tz provider calendars now (now + 86400 * days_ahead) calendar_ids) ∧
      ∀ a b : CalendarEvent,
        List.Sublist [a, b]
          (fetchLoop tz provider calendars now (now + 86400 * days_ahead) calendar_ids) →
        a.start_time ≤ b.start_time → List.Sublist [a, b] r := by
  subst hsetup
  refine ⟨_, rfl, ?_, ?_, ?_⟩
  · exact (List.sorted_mergeSort startLE_trans startLE_total
      (fetchLoop tz provider calendars now (now + 86400 * days_ahead) calendar_ids)).imp
      (fun h => of_decide_eq_true h)
  · exact List.mergeSort_perm _ _
  · intro a b hsub hle
    exact List.pair_sublist_mergeSort startLE_trans startLE_total (decide_eq_true hle) hsub

/-- C4 witness: the theorem evaluated at one calendar served by
`exProvider` with the setup succeeding. -/
theorem c4_witness :
    ∃ r, fetch_events_from_api 0 (.ok ()) exProvider [exCal] ["primary"] 0 7 = .ok r ∧
      r.Pairwise (fun a b => a.start_time ≤ b.start_time) ∧
      r.Perm (fetchLoop 0 exProvider [exCal] 0 (0 + 86400 * 7) ["primary"]) ∧
      ∀ a b : CalendarEvent,
        List.Sublist [a, b] (fetchLoop 0 exProvider [exCal] 0 (0 + 86400 * 7) ["primary"]) →
        a.start_time ≤ b.start_time → List.Sublist [a, b] r :=
  c4_merge_sorted_stable 0 (.ok ()) exProvider [exCal] ["primary"] 0 7 rfl

/-- The per-calendar fetch loop collects exactly the events of the
calendars whose fetches succeed, in calendar order; a failed calendar
contributes the empty list. -/
theorem fetchLoop_eq_flatten (tz : Int)
    (provider : EventsListRequest → Except String (Option (List Event)))
    (calendars : List CalendarConfig) (tmin tmax : Timestamp) :
    ∀ ids : List String,
      fetchLoop tz provider calendars tmin tmax ids =
        (ids.map (fun i =>
          (fetch_calendar_events tz provider calendars i tmin tmax).toOption.getD [])).flatten
  | [] => rfl
  | id :: rest => by
    rw [fetchLoop]
    cases h : fetch_calendar_events tz provider calendars id tmin tmax with
    | ok evs =>
      simp [h, fetchLoop_eq_flatten tz provider calendars tmin tmax rest, Except.toOption]
    | error e =>
      simp [h, fetchLoop_eq_flatten tz provider calendars tmin tmax rest, Except.toOption]

/-- C5: for every aggregation — any number of calendars, failures in any
positions — with the setup succeeding, the call as a whole succeeds and
its result consists exactly of the converted events of the calendars
whose fetches succeeded (each failed calendar contributes nothing). -/
theorem c5_partial_failure (tz : Int) (setup : Except CalendarError Unit)
    (provider : EventsListRequest → Except String (Option (List Event)))
    (calendars : List CalendarConfig) (calendar_ids : List String)
    (now days_ahead : Int) (hsetup : setup = .ok ()) :
    ∃ r, fetch_events_from_api tz setup provider calendars calendar_ids now days_ahead
        = .ok r ∧
      r.Perm ((calendar_ids.map (fun i =>
        (fetch_calendar_events tz provider calendars i now
          (now + 86400 * days_ahead)).toOption.getD [])).flatten) := by
  subst hsetup
  refine ⟨_, rfl, ?_⟩
  rw [← fetchLoop_eq_flatten tz provider calendars now (now + 86400 * days_ahead) calendar_ids]
  exact List.mergeSort_perm _ _

/-- Provider that serves `exEvent1` for the calendar `"primary"` and fails
for every other calendar. -/
def exProviderPartial : EventsListRequest → Except String (Option (List Event)) :=
  fun req => if req.calendarId == "primary" then .ok (some [exEvent1]) else .error "boom"

/-- C5 witness: the theorem evaluated with the failing calendar `"other"`
in first position followed by the succeeding `"primary"` under
`exProviderPartial`: the call succeeds and the result consists exactly of
the events of `"primary"`. -/
theorem c5_witness :
    ∃ r, fetch_events_from_api 0 (.ok ()) exProviderPartial [exCal] ["other", "primary"] 0 7
        = .ok r ∧
      r.Perm ((["other", "primary"].map (fun i =>
        (fetch_calendar_events 0 exProviderPartial [exCal] i 0
          (0 + 86400 * 7)).toOption.getD [])).flatten) :=
  c5_partial_failure 0 (.ok ()) exProviderPartial [exCal] ["other", "primary"] 0 7 rfl

/-- C10: every per-calendar request caps the record count at 250, and when
the provider honors the cap the converted per-calendar list has at most
250 events. -/
theorem c10_max_results_cap (tz : Int)
    (provider : EventsListRequest → Except String (Option (List Event)))
    (calendars : List CalendarConfig) (cid : String) (tmin tmax : Timestamp)
    (l : List CalendarEvent)
    (hcap : ∀ items, provider (eventsListRequest cid tmin tmax) = .ok (some items) →
      items.length ≤ (eventsListRequest cid tmin tmax).maxResults)
    (hok : fetch_calendar_events tz provider calendars cid tmin tmax = .ok l) :
    (eventsListRequest cid tmin tmax).maxResults = 250 ∧ l.length ≤ 250 := by
  refine ⟨rfl, ?_⟩
  rw [fetch_calendar_events] at hok
  cases hp : provider (eventsListRequest cid tmin tmax) with
  | error e => rw [hp] at hok; simp at hok
  | ok items =>
    rw [hp] at hok
    cases hf : calendars.find? (fun cal => cal.id == cid) with
    | none => rw [hf] at hok; simp at hok
    | some cfg =>
      rw [hf] at hok
      cases items with
      | none =>
        simp only [Option.getD, convertEvents] at hok
        cases hok
        simp
      | some its =>
        have hle := convertEvents_length_le tz cfg its l (by simpa using hok)
        have hcap' := hcap its hp
        simp only [eventsListRequest] at hcap'
        omega

/-- C10 witness: the theorem evaluated with `exProvider`, which returns two
records (within the cap). -/
theorem c10_witness :
    (eventsListRequest "primary" 0 100).maxResults = 250 ∧
      (List.length [exCE1, exCE2]) ≤ 250 :=
  c10_max_results_cap 0 exProvider [exCal] "primary" 0 100 [exCE1, exCE2]
    (by intro items h; cases h; decide) (by decide)

unseal List.merge List.mergeSort in
/-- C1: evaluation showing the claim fails on the code: with the cache
empty, `get_events` with `limit = 1` returns one event and stores the full
two-event list; the identical second call hits the cache and returns both
events, ignoring `limit = 1` — the limit is applied only on the
cache-miss path (src/calendar.rs lines 42-44 return the cached list
without truncation). -/
theorem c1_limit_ignored_on_cache_hit :
    (get_events 0 (.ok ()) exProvider exConfig [] 0 7 (some 1)).1 = .ok [exCE1] ∧
      (get_events 0 (.ok ()) exProvider exConfig
          (get_events 0 (.ok ()) exProvider exConfig [] 0 7 (some 1)).2 0 7 (some 1)).1
        = .ok [exCE1, exCE2] ∧
      List.length [exCE1, exCE2] = 2 :=
  ⟨by decide, by decide, by decide⟩

end Callux
